import Mathlib

/-!
Verification of the TPP sandbox compiler extension.

This file gives a shallow embedding of the pattern matchers, the
linalg-to-xsmm conversion helpers and the pack/unpack layout operations of
the repository, and proves (or refutes) the frozen claims about them.

Sources embedded:
  * lib/TPP/Dialect/Tpp/TppUtils.cpp (matchers, zero-tensor chase)
  * lib/TPP/ConvertLinalgToXsmm.cpp (getUnaryInfo, broadcast classification,
    the three rewrite patterns)
  * include/TPP/Dialect/LinalgX/LinalgXOps.td (pack/unpack; their C++
    implementation is not part of the sources at hand, so those definitions
    are modelled from the specification and marked as such)

MLIR framework entities (AffineMap, shaped types, values) are modelled just
deeply enough for the embedded functions: affine expressions are restricted
to the constructors the embedded code distinguishes, shaped values carry
their shape and the result of static-stride computation, and SSA values in
a linalg body are block arguments, in-block results, or out-of-block
values carrying their defining-operation tree.
-/

namespace TppSandbox

/-! ## Affine map model (mlir::AffineMap, restricted) -/

/-- Affine expressions as far as the embedded code distinguishes them: a
dimension, a symbol, a constant, or any other (compound) expression. The
embedded predicates reject every compound expression, so collapsing them
into one constructor does not change any embedded function's value. -/
inductive AffineExprS where
  | dim (i : Nat)
  | sym (i : Nat)
  | cst (c : Int)
  | other
deriving DecidableEq

/-- An affine map: dimension count, symbol count and result expressions. -/
structure AffineMapS where
  numDims : Nat
  numSyms : Nat
  results : List AffineExprS
deriving DecidableEq

namespace AffineMapS

/-- mlir AffineMap::getNumInputs: dims plus symbols. -/
def numInputs (m : AffineMapS) : Nat := m.numDims + m.numSyms

/-- Check loop of AffineMap::isProjectedPermutation: every result is a
distinct dimension (bounded by the input count) or, when allowed, the
constant zero. `seen` collects dimension positions already used. -/
def projPermAux (allowZero : Bool) (numIn : Nat) :
    List AffineExprS → List Nat → Bool
  | [], _ => true
  | e :: rest, seen =>
    match e with
    | .dim i => decide (i < numIn) && !(seen.contains i) &&
        projPermAux allowZero numIn rest (i :: seen)
    | .cst c => allowZero && decide (c = 0) && projPermAux allowZero numIn rest seen
    | _ => false

/-- mlir AffineMap::isProjectedPermutation(allowZeroInResults). -/
def isProjectedPermutation (allowZero : Bool) (m : AffineMapS) : Bool :=
  if m.numSyms ≠ 0 then false
  else if m.results.length > m.numInputs then false
  else projPermAux allowZero m.numInputs m.results []

/-- mlir AffineMap::isPermutation: a projected permutation (no zeros
allowed) that uses every dimension. -/
def isPermutation (m : AffineMapS) : Bool :=
  isProjectedPermutation false m && decide (m.numDims = m.results.length)

/-- Result loop of AffineMap::isMinorIdentityWithBroadcasting: result `idx`
must be the constant zero (recorded as a broadcast dimension) or the
dimension `suffixStart + idx`. Returns the broadcast positions. -/
def minorIdAux (suffixStart : Nat) : Nat → List AffineExprS → Option (List Nat)
  | _, [] => some []
  | idx, e :: rest =>
    match e with
    | .cst c =>
      if c = 0 then (minorIdAux suffixStart (idx + 1) rest).map (idx :: ·)
      else none
    | .dim i =>
      if i = suffixStart + idx then minorIdAux suffixStart (idx + 1) rest
      else none
    | _ => none

/-- mlir AffineMap::isMinorIdentityWithBroadcasting, returning
`some broadcastedDims` on success and `none` on failure. -/
def isMinorIdentityWithBroadcasting (m : AffineMapS) : Option (List Nat) :=
  if m.results.length > m.numDims then none
  else minorIdAux (m.numDims - m.results.length) 0 m.results

end AffineMapS

/-! ## Broadcast classification (ConvertLinalgToXsmm.cpp) -/

/-- The BroadCastType enumeration of ConvertLinalgToXsmm.cpp. -/
inductive BroadCastType where
  | NONE
  | SCALAR
  | ROW
  | COL
deriving DecidableEq

/-- The xsmm::UnaryFlags values used by the conversion. -/
inductive UnaryFlags where
  | NONE
  | BCAST_ROW
  | BCAST_COL
  | BCAST_SCALAR
deriving DecidableEq

/-- The padding loop of getBroadCastFromMap: extend the results with
leading zero constants until their count equals the input count. -/
def padWithLeadingZeros (m : AffineMapS) : AffineMapS :=
  { m with results :=
      List.replicate (m.numInputs - m.results.length) (AffineExprS.cst 0) ++
        m.results }

/-- getBroadCastFromMap of ConvertLinalgToXsmm.cpp: classify an operand's
access map over a 2-D iteration space. `none` models `failure()`. -/
def getBroadCastFromMap (m : AffineMapS) : Option BroadCastType :=
  if m.results.length > m.numInputs ∨ m.numInputs ≠ 2 ∨ m.numSyms ≠ 0 then
    none
  else if m.results.length = 0 then some BroadCastType.SCALAR
  else
    let m2 := padWithLeadingZeros m
    if !m2.isProjectedPermutation true then none
    else
      match m2.isMinorIdentityWithBroadcasting with
      | none => none
      | some bdims =>
        if bdims.isEmpty then some BroadCastType.NONE
        else if bdims.length ≠ 1 then none
        else if bdims.headD 0 = 0 then some BroadCastType.COL
        else some BroadCastType.ROW

/-- getBroadCastUnaryFlagFromMap of ConvertLinalgToXsmm.cpp: translate the
broadcast classification into the xsmm unary flag. -/
def getBroadCastUnaryFlagFromMap (m : AffineMapS) : Option UnaryFlags :=
  match getBroadCastFromMap m with
  | none => none
  | some BroadCastType.SCALAR => some UnaryFlags.BCAST_SCALAR
  | some BroadCastType.ROW => some UnaryFlags.BCAST_ROW
  | some BroadCastType.COL => some UnaryFlags.BCAST_COL
  | some BroadCastType.NONE => some UnaryFlags.NONE

/-! ## Values, strides and UnaryInfo (ConvertLinalgToXsmm.cpp) -/

/-- The type of an mlir::Value as the conversion inspects it: either a
scalar (not a ShapedType) or shaped, carrying its shape and the result of
`mlir::utils::getStaticStrides` (`none` models `failure()`, i.e. the
strides are not statically computable). Dimension extents are int64
values; a dynamic extent is the usual negative sentinel and never occurs
in the claims below. -/
inductive TypedVal where
  | scalar
  | shaped (shape : List Int) (staticStrides : Option (List Int))
deriving DecidableEq

/-- The UnaryInfo kernel-call descriptor of ConvertLinalgToXsmm.cpp.
`m` and `n` are C++ `unsigned` (32-bit) fields, `ldi`/`ldo` are int64. -/
structure UnaryInfoS where
  m : Int
  n : Int
  ldi : Int
  ldo : Int
deriving DecidableEq

/-- The C++ narrowing conversion int64 → unsigned (32-bit). -/
def toUnsigned32 (x : Int) : Int := x % (2 : Int) ^ 32

/-- getUnaryInfo of ConvertLinalgToXsmm.cpp. The C++ function asserts that
the output is a ShapedType, so the output is passed here as its shape plus
its static-stride result. `stridesOnInput->back()` / `->front()` on an
empty stride vector is undefined behaviour in C++ (only reachable for a
rank-0 operand); here the back-check fails on an empty list and `front` of
an empty list defaults to 0. -/
def getUnaryInfo (input : TypedVal) (outShape : List Int)
    (outStrides : Option (List Int)) : Option UnaryInfoS :=
  if outShape.length ≠ 2 then none
  else
    let m := toUnsigned32 (outShape.getD 0 0)
    let n := toUnsigned32 (outShape.getD 1 0)
    let ldiOpt : Option Int :=
      match input with
      | .scalar => some 1
      | .shaped _ strides =>
        match strides with
        | none => none
        | some s => if s.getLast? = some 1 then some (s.headD 0) else none
    match ldiOpt with
    | none => none
    | some ldi =>
      match outStrides with
      | none => none
      | some s =>
        if s.getLast? = some 1 then some ⟨m, n, ldi, s.headD 0⟩ else none

/-! ## The unary dispatch emission (ConvertLinalgToXsmm.cpp) -/

/-- The xsmm::UnaryKind values used by the three patterns. -/
inductive UnaryKind where
  | ZERO
  | TRANSPOSE
  | RELU
deriving DecidableEq

/-- The xsmm unary dispatch emitted by replaceOpWithUnary: its kind, flag
array and the DenseI64Array `dims`. The paired invoke reuses the same kind
and the matched operation's operands. -/
structure UnaryDispatch where
  kind : UnaryKind
  flags : List UnaryFlags
  dims : List Int
deriving DecidableEq

/-- replaceOpWithUnary of ConvertLinalgToXsmm.cpp: build the dispatch with
dims `{m, n, ldi, ldo}` (the unsigned `m`, `n` are zero-extended to
int64). -/
def replaceOpWithUnary (unaryInfo : UnaryInfoS) (flags : List UnaryFlags)
    (kind : UnaryKind) : UnaryDispatch :=
  { kind := kind, flags := flags,
    dims := [unaryInfo.m, unaryInfo.n, unaryInfo.ldi, unaryInfo.ldo] }

/-- ConvertFillOpToUnaryZero::matchAndRewrite. The structural matcher
`isTwoDFillOpWithZeros` (and the operand-count check) lives outside the
translated sources, so its verdict is the `matched` argument; `operands[0]`
and `operands[1]` are `input` and the output's shape/stride data. `none`
models `return failure()`: no operation is created or replaced, the
dispatch/invoke pair in `some` is built only on full success. -/
def convertFillOpToUnaryZero (matched : Bool) (input : TypedVal)
    (outShape : List Int) (outStrides : Option (List Int)) :
    Option UnaryDispatch :=
  if !matched then none
  else
    match getUnaryInfo input outShape outStrides with
    | none => none
    | some unaryInfo =>
      some (replaceOpWithUnary unaryInfo [UnaryFlags.BCAST_SCALAR]
        UnaryKind.ZERO)

/-- ConvertTransposeOpToUnaryTranspose::matchAndRewrite, with the external
structural matcher `isTwoDTransposeOp` passed as `matched`. On success the
`m` and `n` entries of the UnaryInfo are swapped (LIBXSMM wants the input
dimensions for a transpose) before emission. -/
def convertTransposeOpToUnaryTranspose (matched : Bool) (input : TypedVal)
    (outShape : List Int) (outStrides : Option (List Int)) :
    Option UnaryDispatch :=
  if !matched then none
  else
    match getUnaryInfo input outShape outStrides with
    | none => none
    | some unaryInfo =>
      some (replaceOpWithUnary
        { unaryInfo with m := unaryInfo.n, n := unaryInfo.m }
        [UnaryFlags.NONE] UnaryKind.TRANSPOSE)

/-- ConvertGenericToUnaryRelu::matchAndRewrite, with the buffer-semantics
and `isTwoDReluOp` structural checks passed as `matched` and the input
operand's indexing map as `inputMap`. -/
def convertGenericToUnaryRelu (matched : Bool) (input : TypedVal)
    (outShape : List Int) (outStrides : Option (List Int))
    (inputMap : AffineMapS) : Option UnaryDispatch :=
  if !matched then none
  else
    match getUnaryInfo input outShape outStrides with
    | none => none
    | some unaryInfo =>
      match getBroadCastUnaryFlagFromMap inputMap with
      | none => none
      | some broadCastFlag =>
        some (replaceOpWithUnary unaryInfo [broadCastFlag] UnaryKind.RELU)

/-! ## Zero-tensor backward chase (TppUtils.cpp) -/

/-- An operation as the zero-tensor chase of TppUtils.cpp distinguishes
it. A chased mlir::Value is `Option ZOp`: its defining operation, or
`none` for a value with no defining operation (a block argument).
Operands are embedded as subtrees of their user; the `prev` field of each
traversed operation holds the already-resolved result of
`getPrevUser(source.getDefiningOp(), thisOp)` — the closest earlier user
of the source's defining op, a use-list lookup performed through the
framework's user iterators (the list-level `getPrevUser` below is the
translation of that lookup itself). -/
inductive ZOp where
  | constF (isZero : Bool)
  | constI (v : Int)
  | fill (inputs : List (Option ZOp))
  | linalgCopy (inputs : List (Option ZOp)) (prev : Option ZOp)
  | memrefCopy (source : Option ZOp) (prev : Option ZOp)
  | subview (source : Option ZOp) (prev : Option ZOp)
  | tensorCast (source : Option ZOp) (prev : Option ZOp)
  | extractSlice (source : Option ZOp) (prev : Option ZOp)
  | otherZ

/-- getPrevUser of TppUtils.cpp, at the level of the use list: walk the
users (the iterator visits them from the last to the first user), find
`currentUser`, and return the next (i.e. earlier) user if any. -/
def getPrevUser [DecidableEq α] (users : List α) (currentUser : α) :
    Option α :=
  match users with
  | [] => none
  | u :: rest =>
    if u = currentUser then rest.head?
    else getPrevUser rest currentUser

/-- isValConstZero of TppUtils.cpp on a chased value:
`matchPattern(val, m_AnyZeroFloat()) || matchPattern(val, m_Zero())`,
i.e. the defining operation is a constant float zero (of either sign) or a
constant integer zero. -/
def isValConstZeroZ : Option ZOp → Bool
  | some (ZOp.constF isZero) => isZero
  | some (ZOp.constI v) => decide (v = 0)
  | _ => false

/-- isZeroTensor of TppUtils.cpp (both overloads fused: the Value overload
is the call on `Option ZOp`): a null defining op is false; a fill is a
zero tensor iff its single input is a constant zero; copy/view/cast/slice
operations propagate through their source or through the closest earlier
user of the source's defining op; every other operation is false. -/
def isZeroTensorO : Option ZOp → Bool
  | none => false
  | some op =>
    match op with
    | ZOp.fill inputs =>
      match inputs with
      | [v] => isValConstZeroZ v
      | _ => false
    | ZOp.linalgCopy inputs prev =>
      match inputs with
      | [v] => isZeroTensorO v || isZeroTensorO prev
      | _ => false
    | ZOp.memrefCopy source prev => isZeroTensorO source || isZeroTensorO prev
    | ZOp.subview source prev => isZeroTensorO source || isZeroTensorO prev
    | ZOp.tensorCast source prev => isZeroTensorO source || isZeroTensorO prev
    | ZOp.extractSlice source prev =>
      isZeroTensorO source || isZeroTensorO prev
    | _ => false

/-! ## linalg.generic model (iterators, operands, body) -/

/-- Iterator kinds of a linalg operation. -/
inductive IteratorTy where
  | parallel
  | reduction
deriving DecidableEq

/-- linalg::isParallelIterator. -/
def isParallelIterator (it : IteratorTy) : Bool := it = IteratorTy.parallel

/-- linalg::isReductionIterator. -/
def isReductionIterator (it : IteratorTy) : Bool := it = IteratorTy.reduction

/-- An SSA value as seen from inside a linalg.generic body: a block
argument, the (single) result of the in-block operation at a given index,
or a value defined outside the block (carrying its defining-operation tree
for the zero-tensor chase; `none` = no defining operation). -/
inductive Val where
  | arg (i : Nat)
  | res (j : Nat)
  | ext (z : Option ZOp)

/-- Value identity as the embedded code compares it. The embedded matchers
only ever compare an out-of-block value against an in-block one (isAddMul
compares against block arguments and in-block results, hasMaxfZeroOp
compares block arguments against maxf operands), so `ext` values compare
unequal to everything. -/
def valBeq : Val → Val → Bool
  | .arg i, .arg j => i = j
  | .res i, .res j => i = j
  | _, _ => false

/-- The arith operations the matchers look for. -/
inductive ArithKind where
  | addf
  | addi
  | mulf
  | muli
  | maxf
deriving DecidableEq

/-- An operation inside a linalg.generic body. `scalarTy` on the arith and
unary constructors records whether the single result type satisfies
`Type::isIntOrFloat()` (false for vector/tensor results). `unary` is any
single-operand operation (cast, negation, ...); `otherB` any other
operation. -/
inductive BodyOp where
  | arith (k : ArithKind) (a b : Val) (scalarTy : Bool)
  | constF (isZero : Bool)
  | constI (v : Int)
  | unary (a : Val) (scalarTy : Bool)
  | yield (vs : List Val)
  | otherB (operands : List Val)

def isAddFOp : BodyOp → Bool
  | .arith ArithKind.addf _ _ _ => true
  | _ => false

def isMulFOp : BodyOp → Bool
  | .arith ArithKind.mulf _ _ _ => true
  | _ => false

def isAddIOp : BodyOp → Bool
  | .arith ArithKind.addi _ _ _ => true
  | _ => false

def isMulIOp : BodyOp → Bool
  | .arith ArithKind.muli _ _ _ => true
  | _ => false

def isMaxFOp : BodyOp → Bool
  | .arith ArithKind.maxf _ _ _ => true
  | _ => false

def isYieldOp : BodyOp → Bool
  | .yield _ => true
  | _ => false

/-- Operation::getNumOperands for a body operation. -/
def numOperands : BodyOp → Nat
  | .arith _ _ _ _ => 2
  | .constF _ => 0
  | .constI _ => 0
  | .unary _ _ => 1
  | .yield vs => vs.length
  | .otherB vs => vs.length

/-- Operation::getOperand(0) for a body operation (none when it has no
operands; the embedded code only calls it behind an operand-count check). -/
def operand0 : BodyOp → Option Val
  | .arith _ a _ _ => some a
  | .unary a _ => some a
  | .yield vs => vs.head?
  | .otherB vs => vs.head?
  | _ => none

/-- `llvm::any_of(op.getResultTypes(), [](Type t){return !t.isIntOrFloat();})`
for a body operation. yield and the scalar constants have no offending
result; for `otherB` the check is unreachable in the embedded matchers
(the isa test in hasOnlyScalarElementwiseOp rejects it first). -/
def anyResultNotIntOrFloat : BodyOp → Bool
  | .arith _ _ _ scalarTy => !scalarTy
  | .unary _ scalarTy => !scalarTy
  | _ => false

/-- A block of a linalg.generic region: argument count and operation list
(the last operation is the terminator). -/
structure BlockM where
  numArgs : Nat
  ops : List BodyOp

/-- The type of a linalg operand: a scalar, or a shaped (tensor/memref)
type whose extents are `some e` when static and `none` when dynamic. -/
inductive OpndTy where
  | scalarTy
  | shapedTy (isTensor : Bool) (shape : List (Option Nat))

/-- ShapedType dynamic-extent test on an operand type. -/
def OpndTy.hasDynamicDim : OpndTy → Bool
  | .scalarTy => false
  | .shapedTy _ shape => shape.any Option.isNone

/-- Operand classification used by hasTensorSemantics: scalars are
admissible, shaped operands must be ranked tensors. -/
def OpndTy.isTensorLike : OpndTy → Bool
  | .scalarTy => true
  | .shapedTy isTensor _ => isTensor

/-- A linalg.generic operand: its type, its defining operation (for the
zero-tensor chase; `none` = block argument / no def) and the resolved
`getPrevUser(defn, genericOp)`. -/
structure Opnd where
  ty : OpndTy
  defn : Option ZOp
  prev : Option ZOp

/-- A linalg.generic operation: iterator kinds, input and init (output)
operands, indexing maps (one per operand, inputs first) and the blocks of
its single region. -/
structure GenericOp where
  iterators : List IteratorTy
  inputs : List Opnd
  inits : List Opnd
  indexingMaps : List AffineMapS
  blocks : List BlockM

namespace GenericOp

def numLoops (g : GenericOp) : Nat := g.iterators.length

def numParallelLoops (g : GenericOp) : Nat :=
  (g.iterators.filter isParallelIterator).length

def operands (g : GenericOp) : List Opnd := g.inputs ++ g.inits

/-- LinalgOp::hasDynamicShape: some operand has a dynamic extent. -/
def hasDynamicShape (g : GenericOp) : Bool :=
  g.operands.any fun o => o.ty.hasDynamicDim

/-- DestinationStyleOpInterface::hasTensorSemantics. -/
def hasTensorSemantics (g : GenericOp) : Bool :=
  g.operands.all fun o => o.ty.isTensorLike

end GenericOp

/-! ## TppUtils.cpp matchers -/

/-- hasStaticShape of TppUtils.cpp: `!linalgOp.hasDynamicShape()`. -/
def hasStaticShape (g : GenericOp) : Bool := !g.hasDynamicShape

/-- isChainOfUnaryOpsFrom of TppUtils.cpp: the use-def chain from `v` to
`vfrom` consists of zero or more single-operand operations. The C++ loop
terminates because in-block defs strictly precede their uses; the fuel
argument (always instantiated with `ops.length + 1`, enough for any chain
through a well-formed block) makes that explicit. An out-of-block value
can never equal the in-block targets this function is called with, and its
transitive operands stay out of the block, so the loop exits false there. -/
def isChainOfUnaryOpsFrom (ops : List BodyOp) : Nat → Val → Val → Bool
  | 0, _, _ => false
  | fuel + 1, v, vfrom =>
    if valBeq v vfrom then true
    else
      match v with
      | .arg _ => false
      | .ext _ => false
      | .res j =>
        match ops[j]? with
        | none => false
        | some op =>
          if numOperands op ≠ 1 then false
          else
            match operand0 op with
            | some v2 => isChainOfUnaryOpsFrom ops fuel v2 vfrom
            | none => false

/-- getSingleOpOfType of TppUtils.cpp, returning the index of the unique
operation satisfying `p` (none when there is no instance or more than
one). -/
def singleOpIdx (p : BodyOp → Bool) (ops : List BodyOp) : Option Nat :=
  match ops.enum.filter (fun x => p x.2) with
  | [(i, _)] => some i
  | _ => none

/-- isAddMul of TppUtils.cpp, parameterised by the add/mul operation kind
pair. Note: the source combines the three facet conditions with `|=`
(boolean or), so the function returns true as soon as ONE of them holds;
this is translated literally. -/
def isAddMul (isAddOp isMulOp : BodyOp → Bool) (b : BlockM) : Bool :=
  if b.numArgs ≠ 3 then false
  else
    match b.ops.getLast? with
    | none => false
    | some yieldOp =>
      if numOperands yieldOp ≠ 1 then false
      else
        match operand0 yieldOp with
        | none => false
        | some res =>
          match singleOpIdx isAddOp b.ops, singleOpIdx isMulOp b.ops with
          | some ai, some mi =>
            match b.ops[ai]?, b.ops[mi]? with
            | some (.arith _ c1 c2 _), some (.arith _ a bb _) =>
              let argA := Val.arg 0
              let argB := Val.arg 1
              let argC := Val.arg 2
              let mul := Val.res mi
              let add := Val.res ai
              let un := isChainOfUnaryOpsFrom b.ops (b.ops.length + 1)
              let success := un res add
              let success := success ||
                ((un c1 argC && un c2 mul) || (un c1 mul && un c2 argC))
              let success := success ||
                ((un a argA && un bb argB) || (un a argB && un bb argA))
              success
            | _, _ => false
          | _, _ => false

/-- The matmul body detection that isAddMul's own comment (and the spec)
describes: the yielded result traces to the add AND the add combines `c`
with the mul AND the mul combines `a` with `b` (each through a chain of
unary operations) — the same three conditions joined with `&&` instead of
the source's `|=`. Used to exhibit the divergence between the code and its
documentation. -/
def isAddMulAsDocumented (isAddOp isMulOp : BodyOp → Bool) (b : BlockM) :
    Bool :=
  if b.numArgs ≠ 3 then false
  else
    match b.ops.getLast? with
    | none => false
    | some yieldOp =>
      if numOperands yieldOp ≠ 1 then false
      else
        match operand0 yieldOp with
        | none => false
        | some res =>
          match singleOpIdx isAddOp b.ops, singleOpIdx isMulOp b.ops with
          | some ai, some mi =>
            match b.ops[ai]?, b.ops[mi]? with
            | some (.arith _ c1 c2 _), some (.arith _ a bb _) =>
              let argA := Val.arg 0
              let argB := Val.arg 1
              let argC := Val.arg 2
              let mul := Val.res mi
              let add := Val.res ai
              let un := isChainOfUnaryOpsFrom b.ops (b.ops.length + 1)
              un res add &&
                ((un c1 argC && un c2 mul) || (un c1 mul && un c2 argC)) &&
                ((un a argA && un bb argB) || (un a argB && un bb argA))
            | _, _ => false
          | _, _ => false

/-- hasMatmulBody of TppUtils.cpp: single region (always true for a
linalg.generic) with a single block whose body is isAddMul on the float or
on the integer field. -/
def hasMatmulBody (g : GenericOp) : Bool :=
  match g.blocks with
  | [b] => isAddMul isAddFOp isMulFOp b || isAddMul isAddIOp isMulIOp b
  | _ => false

/-- The canonical matmul indexing maps `(i,k), (k,j), (i,j)` that
isTppMatmul builds with inferFromExprList over three bound dimensions. -/
def matmulMaps : List AffineMapS :=
  [⟨3, 0, [AffineExprS.dim 0, AffineExprS.dim 2]⟩,
   ⟨3, 0, [AffineExprS.dim 2, AffineExprS.dim 1]⟩,
   ⟨3, 0, [AffineExprS.dim 0, AffineExprS.dim 1]⟩]

/-- isTppMatmul of TppUtils.cpp: [parallel, parallel, reduction]
iterators, the canonical matmul maps, and hasMatmulBody. -/
def isTppMatmul (g : GenericOp) : Bool :=
  if g.iterators.length ≠ 3 then false
  else if !(isParallelIterator (g.iterators.getD 0 IteratorTy.reduction) &&
      isParallelIterator (g.iterators.getD 1 IteratorTy.reduction) &&
      isReductionIterator (g.iterators.getD 2 IteratorTy.parallel)) then
    false
  else if g.indexingMaps ≠ matmulMaps then false
  else hasMatmulBody g

/-- hasOnlyYieldOp of TppUtils.cpp: one block containing exactly one
operation (the linalg.yield). -/
def hasOnlyYieldOp (blocks : List BlockM) : Bool :=
  match blocks with
  | [b] => b.ops.length = 1
  | _ => false

/-- hasCopySemantics of TppUtils.cpp: all loops parallel, exactly two
operands of which one is an input, and a yield-only body. -/
def hasCopySemantics (g : GenericOp) : Bool :=
  if g.numParallelLoops ≠ g.numLoops then false
  else if g.operands.length ≠ 2 ∨ g.inputs.length ≠ 1 then false
  else hasOnlyYieldOp g.blocks

/-- hasOnlyScalarElementwiseOp of TppUtils.cpp, parameterised by the
expected arith operation: one block with exactly two operations, each of
which is the expected operation or the yield, all of whose result types
are int or float. -/
def hasOnlyScalarElementwiseOp (isOp : BodyOp → Bool) (blocks : List BlockM) :
    Bool :=
  match blocks with
  | [b] =>
    decide (b.ops.length = 2) &&
      b.ops.all fun op =>
        (isOp op || isYieldOp op) && !(anyResultNotIntOrFloat op)
  | _ => false

/-- hasOneInputOneOutput of TppUtils.cpp. -/
def hasOneInputOneOutput (g : GenericOp) : Bool :=
  decide (g.inputs.length = 1) && decide (g.inits.length = 1)

/-- isValConstZero of TppUtils.cpp applied to a value occurring inside the
generic body: the value's defining operation must be a constant float zero
or constant integer zero. In-block results are looked up in the block,
out-of-block values in their defining tree. -/
def isValConstZeroBody (ops : List BodyOp) : Val → Bool
  | .arg _ => false
  | .res j =>
    match ops[j]? with
    | some (.constF isZero) => isZero
    | some (.constI v) => decide (v = 0)
    | _ => false
  | .ext z => isValConstZeroZ z

/-- isZeroTensor of TppUtils.cpp applied to a value occurring inside the
generic body. The operations that can define an in-block value (arith
operations, constants, casts) are all outside the fill/copy/view set of
the TypeSwitch, so only out-of-block values can chase to a zero tensor. -/
def isZeroTensorBody : Val → Bool
  | .ext z => isZeroTensorO z
  | _ => false

/-- hasMaxfZeroOp of TppUtils.cpp: some arith.maxf in the single-block
body whose rhs is a constant zero, whose lhs or rhs is a zero-filled
tensor, or which directly uses a generic operand (block argument) that is
— itself or via the closest earlier user of its defining op — a
zero-filled tensor. -/
def hasMaxfZeroOp (g : GenericOp) : Bool :=
  match g.blocks with
  | [b] =>
    b.ops.any fun op =>
      match op with
      | .arith ArithKind.maxf lhs rhs _ =>
        isValConstZeroBody b.ops rhs || isZeroTensorBody lhs ||
          isZeroTensorBody rhs ||
          ((List.range b.numArgs).any fun i =>
            (valBeq (Val.arg i) lhs || valBeq (Val.arg i) rhs) &&
              (match g.operands[i]? with
               | some opnd => isZeroTensorO opnd.defn || isZeroTensorO opnd.prev
               | none => false))
      | _ => false
  | _ => false

/-- linalg::isElementwise of the surrounding framework: all loops
parallel, every indexing map a projected permutation (zeros allowed), and
every init operand's map a permutation. -/
def isElementwise (g : GenericOp) : Bool :=
  if g.numLoops ≠ g.numParallelLoops then false
  else if !(g.indexingMaps.all (AffineMapS.isProjectedPermutation true)) then
    false
  else
    (List.range g.inits.length).all fun i =>
      match g.indexingMaps[g.inputs.length + i]? with
      | some m => m.isPermutation
      | none => false

/-- canMapToTppAdd of TppUtils.cpp. -/
def canMapToTppAdd (g : GenericOp) : Bool :=
  if !isElementwise g then false
  else if !hasStaticShape g || !hasOneInputOneOutput g then false
  else hasOnlyScalarElementwiseOp isAddFOp g.blocks

/-- isTppAdd of TppUtils.cpp. -/
def isTppAdd (g : GenericOp) : Bool :=
  if g.numLoops ≠ g.numParallelLoops then false
  else if g.inputs.length ≠ 1 ∨ g.inits.length ≠ 1 then false
  else if g.hasTensorSemantics then false
  else hasOnlyScalarElementwiseOp isAddFOp g.blocks

/-- canMapToTppRelu of TppUtils.cpp. -/
def canMapToTppRelu (g : GenericOp) : Bool :=
  if !isElementwise g then false
  else if !hasStaticShape g || !hasMaxfZeroOp g then false
  else hasOnlyScalarElementwiseOp isMaxFOp g.blocks

/-- isTppRelu of TppUtils.cpp. -/
def isTppRelu (g : GenericOp) : Bool :=
  if g.numLoops ≠ g.numParallelLoops then false
  else if g.inputs.length ≠ 0 ∨ g.inits.length ≠ 1 then false
  else if g.hasTensorSemantics then false
  else hasOnlyScalarElementwiseOp isMaxFOp g.blocks

/-- canMapToTppIdentity of TppUtils.cpp. -/
def canMapToTppIdentity (g : GenericOp) : Bool :=
  if !isElementwise g then false
  else hasStaticShape g && hasCopySemantics g

/-- isTppIdentity of TppUtils.cpp. -/
def isTppIdentity (g : GenericOp) : Bool :=
  if g.numLoops ≠ g.numParallelLoops then false
  else if g.inputs.length ≠ 1 ∨ g.inits.length ≠ 1 then false
  else if g.hasTensorSemantics then false
  else hasCopySemantics g

/-! ## Pack and unpack (LinalgXOps.td)

The C++ implementation of the pack/unpack type inference and of their
scalar reference semantics (PackOp::getPackedType / inferResultType and
generateScalarImplementation in LinalgXOps.cpp) is not among the sources
at hand — only the operation declarations and their documentation in
LinalgXOps.td are. The definitions of this section are therefore modelled
from the specification and marked as such. -/

/-- Modelled from the spec: the ceiling division used for the outer
extents of a padded pack ("dividing their extent by the matching tile
size (ceiling-division if padding is allowed, exact division
otherwise)"). -/
def ceilDivN (a b : Nat) : Nat := (a + b - 1) / b

/-- Modelled from the spec: a packing descriptor for a rank-`r` source
with `k` tiled dimensions — `inner_dims_pos` (`pos`), `inner_tiles`
(`tiles`, one size per chosen dimension, so both have length `k` by
construction), and the outer-dimension permutation `perm` (the identity
permutation when `outer_dims_perm` is absent). -/
structure PackDescF (r k : Nat) where
  pos : Fin k → Fin r
  tiles : Fin k → Nat
  perm : Equiv.Perm (Fin r)

namespace PackDescF

/-- The tile index assigned to source dimension `d`, if `d` is tiled:
the first entry of `inner_dims_pos` naming `d`. -/
def findJ {r k : Nat} (D : PackDescF r k) (d : Fin r) : Option (Fin k) :=
  (List.finRange k).find? fun j => decide (D.pos j = d)

/-- Modelled from the spec: the outer extents before permutation — each
tiled dimension's extent divided (ceiling) by its tile size, the other
dimensions unchanged. -/
def outerExt {r k : Nat} (D : PackDescF r k) (shape : Fin r → Nat) :
    Fin r → Nat := fun d =>
  match D.findJ d with
  | some j => ceilDivN (shape d) (D.tiles j)
  | none => shape d

/-- Modelled from the spec: the leading (outer) dimensions of the packed
shape, with `outer_dims_perm` applied. -/
def packedOuterShape {r k : Nat} (D : PackDescF r k) (shape : Fin r → Nat) :
    Fin r → Nat := fun d => D.outerExt shape (D.perm d)

/-- Modelled from the spec: the source index a packed coordinate reads —
`outer * tile + inner` on tiled dimensions ("floor(index/tile) outer
coordinates and index mod tile inner coordinates"), the outer coordinate
itself elsewhere. `o0` is the outer coordinate in unpermuted (source)
order. -/
def srcIndex {r k : Nat} (D : PackDescF r k) (o0 : Fin r → Nat)
    (i : Fin k → Nat) : Fin r → Nat := fun d =>
  match D.findJ d with
  | some j => o0 d * D.tiles j + i j
  | none => o0 d

end PackDescF

/-- Modelled from the spec: the scalar reference semantics of pack — the
element of the packed tensor at (permuted) outer coordinate `o` and inner
coordinate `i` is the source element at the corresponding source index
when that index is in bounds, and the padding value otherwise ("all
positions beyond the original extent hold the padding value"). -/
def packData {r k : Nat} {α : Type} (shape : Fin r → Nat)
    (data : (Fin r → Nat) → α) (D : PackDescF r k) (pad : α)
    (o : Fin r → Nat) (i : Fin k → Nat) : α :=
  let o0 : Fin r → Nat := fun e => o (D.perm.symm e)
  let src := D.srcIndex o0 i
  if (List.finRange r).all (fun d => decide (src d < shape d)) then data src
  else pad

/-- Modelled from the spec: the scalar reference semantics of unpack —
one element copy per iteration point of the unpacked domain, reading the
packed element whose outer coordinates are the floor-divided indices (in
permuted order) and whose inner coordinates are the remainders. -/
def unpackData {r k : Nat} {α : Type}
    (packed : (Fin r → Nat) → (Fin k → Nat) → α) (D : PackDescF r k)
    (idx : Fin r → Nat) : α :=
  let o0 : Fin r → Nat := fun d =>
    match D.findJ d with
    | some j => idx d / D.tiles j
    | none => idx d
  packed (fun d => o0 (D.perm d)) (fun j => idx (D.pos j) % D.tiles j)

/-- Modelled from the spec: the unpack shape verification — unpack
declares its unpacked destination shape, and it is a verifier error if
packing that shape with the same descriptor does not reproduce the packed
input's shape exactly (the shape round-trip invariant). Returns true when
the declared shapes are consistent. -/
def unpackVerify {r k : Nat} (D : PackDescF r k)
    (packedOuter : Fin r → Nat) (packedInner : Fin k → Nat)
    (destShape : Fin r → Nat) : Bool :=
  decide (packedOuter = D.packedOuterShape destShape) &&
    decide (packedInner = D.tiles)

/-- Modelled from the spec: one outer dimension of the packed result type
for a possibly dynamic source shape (list form, `none` = dynamic) when a
padding value is set — a tiled static extent is ceiling-divided by its
tile, a dynamic extent stays dynamic ("the result shape becomes statically
known only where the corresponding input dimension was static — otherwise
both remain dynamic"). -/
def packOuterDim (srcShape : List (Option Nat)) (pos tiles : List Nat)
    (d : Nat) : Option Nat :=
  let s := srcShape.getD d none
  match pos.findIdx? (fun p => decide (p = d)) with
  | some j => s.map fun se => ceilDivN se (tiles.getD j 1)
  | none => s

/-- Modelled from the spec: the packed result shape (list form, with no
outer permutation) when a padding value is set — ceiling-divided outer
extents with the tile sizes appended at the tail in `inner_dims_pos`
order. -/
def packedShapeWithPad (srcShape : List (Option Nat)) (pos tiles : List Nat) :
    List (Option Nat) :=
  ((List.range srcShape.length).map (packOuterDim srcShape pos tiles)) ++
    tiles.map some

/-! ## Theorems -/

/-- Helper: the guard cases in which getBroadCastFromMap fails
immediately. -/
theorem getBroadCastFromMap_none_of_guard (m : AffineMapS)
    (h : m.numInputs ≠ 2 ∨ m.numSyms ≠ 0) : getBroadCastFromMap m = none := by
  unfold getBroadCastFromMap
  have hg : m.results.length > m.numInputs ∨ m.numInputs ≠ 2 ∨ m.numSyms ≠ 0 :=
    Or.inr h
  rw [if_pos hg]

/-- Helper: getBroadCastFromMap fails when the zero-padded map is not a
projected permutation with zeros allowed (for maps with at least one
result). -/
theorem getBroadCastFromMap_none_of_not_projPerm (m : AffineMapS)
    (hres : m.results ≠ [])
    (h : (padWithLeadingZeros m).isProjectedPermutation true = false) :
    getBroadCastFromMap m = none := by
  unfold getBroadCastFromMap
  by_cases h1 : m.results.length > m.numInputs ∨ m.numInputs ≠ 2 ∨ m.numSyms ≠ 0
  · rw [if_pos h1]
  · rw [if_neg h1]
    have h2 : ¬(m.results.length = 0) := by
      simpa [List.length_eq_zero] using hres
    rw [if_neg h2]
    simp [h]

/-- Helper: getBroadCastFromMap fails when the zero-padded map has two or
more broadcast dimensions (for maps with at least one result). -/
theorem getBroadCastFromMap_none_of_two_broadcasts (m : AffineMapS)
    (bdims : List Nat) (hres : m.results ≠ [])
    (hmin : (padWithLeadingZeros m).isMinorIdentityWithBroadcasting =
      some bdims)
    (hlen : 2 ≤ bdims.length) : getBroadCastFromMap m = none := by
  unfold getBroadCastFromMap
  by_cases h1 : m.results.length > m.numInputs ∨ m.numInputs ≠ 2 ∨ m.numSyms ≠ 0
  · rw [if_pos h1]
  · rw [if_neg h1]
    have h2 : ¬(m.results.length = 0) := by
      simpa [List.length_eq_zero] using hres
    rw [if_neg h2]
    cases hp : (padWithLeadingZeros m).isProjectedPermutation true with
    | false => simp [hp]
    | true =>
      have hne : bdims.isEmpty = false := by
        cases bdims with
        | nil => simp at hlen
        | cons a t => simp
      have hl1 : bdims.length ≠ 1 := by omega
      simp [hp, hmin, hne, hl1]

/-- C2: getBroadCastFromMap classifies the four canonical 2-D access maps
as NONE, COL, ROW and SCALAR, fails on any map with more than one
broadcast dimension (and on maps whose input-dimension count is not 2,
that contain symbols, or that are not a projected permutation with zeros
allowed), and getBroadCastUnaryFlagFromMap translates the four outcomes
to BCAST_SCALAR, BCAST_ROW, BCAST_COL and NONE by name. -/
theorem broadcast_classification_correct :
    (getBroadCastFromMap ⟨2, 0, [AffineExprS.dim 0, AffineExprS.dim 1]⟩ =
      some BroadCastType.NONE) ∧
    (getBroadCastFromMap ⟨2, 0, [AffineExprS.cst 0, AffineExprS.dim 1]⟩ =
      some BroadCastType.COL) ∧
    (getBroadCastFromMap ⟨2, 0, [AffineExprS.dim 0, AffineExprS.cst 0]⟩ =
      some BroadCastType.ROW) ∧
    (getBroadCastFromMap ⟨2, 0, []⟩ = some BroadCastType.SCALAR) ∧
    (∀ m : AffineMapS, m.numInputs ≠ 2 → getBroadCastFromMap m = none) ∧
    (∀ m : AffineMapS, m.numSyms ≠ 0 → getBroadCastFromMap m = none) ∧
    (∀ m : AffineMapS, m.results ≠ [] →
      (padWithLeadingZeros m).isProjectedPermutation true = false →
      getBroadCastFromMap m = none) ∧
    (∀ m : AffineMapS, ∀ bdims : List Nat, m.results ≠ [] →
      (padWithLeadingZeros m).isMinorIdentityWithBroadcasting = some bdims →
      2 ≤ bdims.length → getBroadCastFromMap m = none) ∧
    (∀ m : AffineMapS, getBroadCastUnaryFlagFromMap m =
      (getBroadCastFromMap m).map fun bc =>
        match bc with
        | BroadCastType.SCALAR => UnaryFlags.BCAST_SCALAR
        | BroadCastType.ROW => UnaryFlags.BCAST_ROW
        | BroadCastType.COL => UnaryFlags.BCAST_COL
        | BroadCastType.NONE => UnaryFlags.NONE) := by
  refine ⟨by decide, by decide, by decide, by decide, ?_, ?_, ?_, ?_, ?_⟩
  · intro m h
    exact getBroadCastFromMap_none_of_guard m (Or.inl h)
  · intro m h
    exact getBroadCastFromMap_none_of_guard m (Or.inr h)
  · exact getBroadCastFromMap_none_of_not_projPerm
  · exact getBroadCastFromMap_none_of_two_broadcasts
  · intro m
    unfold getBroadCastUnaryFlagFromMap
    cases h : getBroadCastFromMap m with
    | none => simp
    | some bc => cases bc <;> simp

/-- Witness for C2: the failure conjuncts applied at concrete maps —
three input dimensions, a symbol, a compound result expression, and the
all-zero (two-broadcast) map. -/
theorem broadcast_classification_correct_witness :
    (getBroadCastFromMap ⟨3, 0, [AffineExprS.dim 0]⟩ = none) ∧
    (getBroadCastFromMap ⟨1, 1, [AffineExprS.dim 0]⟩ = none) ∧
    (getBroadCastFromMap ⟨2, 0, [AffineExprS.other]⟩ = none) ∧
    (getBroadCastFromMap ⟨2, 0, [AffineExprS.cst 0, AffineExprS.cst 0]⟩ =
      none) := by
  refine ⟨?_, ?_, ?_, ?_⟩
  · exact broadcast_classification_correct.2.2.2.2.1 ⟨3, 0, [AffineExprS.dim 0]⟩
      (by decide)
  · exact broadcast_classification_correct.2.2.2.2.2.1
      ⟨1, 1, [AffineExprS.dim 0]⟩ (by decide)
  · exact broadcast_classification_correct.2.2.2.2.2.2.1
      ⟨2, 0, [AffineExprS.other]⟩ (by decide) (by decide)
  · exact broadcast_classification_correct.2.2.2.2.2.2.2.1
      ⟨2, 0, [AffineExprS.cst 0, AffineExprS.cst 0]⟩ [0, 1] (by decide)
      (by decide) (by decide)

/-- C3: getUnaryInfo succeeds iff the output is rank-2 with statically
computable strides of innermost stride 1 and, for a shaped input, the
input's strides are also statically computable with innermost stride 1;
on success m and n are the output's two extents (any extents a real
shaped type can have fit the unsigned field), ldo its leading stride, and
ldi the input's leading stride (1 for an unshaped scalar input). -/
theorem getUnaryInfo_correct :
    ∀ (input : TypedVal) (outShape : List Int)
      (outStrides : Option (List Int)),
    ((getUnaryInfo input outShape outStrides).isSome ↔
      (outShape.length = 2 ∧
        (∃ s, outStrides = some s ∧ s.getLast? = some 1) ∧
        (∀ ish istr, input = TypedVal.shaped ish istr →
          ∃ t, istr = some t ∧ t.getLast? = some 1))) ∧
    (∀ info : UnaryInfoS, getUnaryInfo input outShape outStrides = some info →
      (∀ d0 d1 : Int, outShape = [d0, d1] → 0 ≤ d0 → d0 < 2 ^ 32 →
        0 ≤ d1 → d1 < 2 ^ 32 → info.m = d0 ∧ info.n = d1) ∧
      (∀ s, outStrides = some s → info.ldo = s.headD 0) ∧
      (input = TypedVal.scalar → info.ldi = 1) ∧
      (∀ ish t, input = TypedVal.shaped ish (some t) →
        info.ldi = t.headD 0)) := by
  intro input outShape outStrides
  by_cases hlen : outShape.length = 2
  case neg =>
    have hg : getUnaryInfo input outShape outStrides = none := by
      unfold getUnaryInfo
      rw [if_pos hlen]
    rw [hg]
    constructor
    · simp [hlen]
    · intro info hinfo
      simp at hinfo
  case pos =>
    have hqlen : ¬(outShape.length ≠ 2) := not_not_intro hlen
    cases input with
    | scalar =>
      cases outStrides with
      | none =>
        have hg : getUnaryInfo TypedVal.scalar outShape none = none := by
          unfold getUnaryInfo
          rw [if_neg hqlen]
        rw [hg]
        constructor
        · simp
        · intro info hinfo
          simp at hinfo
      | some s =>
        by_cases hs : s.getLast? = some 1
        · have hg : getUnaryInfo TypedVal.scalar outShape (some s) =
              some ⟨toUnsigned32 (outShape.getD 0 0),
                toUnsigned32 (outShape.getD 1 0), 1, s.headD 0⟩ := by
            unfold getUnaryInfo
            rw [if_neg hqlen]
            simp [hs]
          rw [hg]
          constructor
          · simp [hlen, hs]
          · intro info hinfo
            have hi : info = ⟨toUnsigned32 (outShape.getD 0 0),
                toUnsigned32 (outShape.getD 1 0), 1, s.headD 0⟩ := by
              exact (Option.some_injective _ hinfo).symm
            subst hi
            refine ⟨?_, ?_, ?_, ?_⟩
            · intro d0 d1 hsh h0 h0b h1 h1b
              subst hsh
              constructor
              · simpa [toUnsigned32] using Int.emod_eq_of_lt h0 h0b
              · simpa [toUnsigned32] using Int.emod_eq_of_lt h1 h1b
            · intro s2 hs2
              cases hs2
              rfl
            · intro
              rfl
            · intro ish t ht
              cases ht
        · have hg : getUnaryInfo TypedVal.scalar outShape (some s) = none := by
            unfold getUnaryInfo
            rw [if_neg hqlen]
            simp [hs]
          rw [hg]
          constructor
          · simp [hs]
          · intro info hinfo
            simp at hinfo
    | shaped ish istr =>
      cases istr with
      | none =>
        have hg : getUnaryInfo (TypedVal.shaped ish none) outShape
            outStrides = none := by
          unfold getUnaryInfo
          rw [if_neg hqlen]
        rw [hg]
        constructor
        · simp
        · intro info hinfo
          simp at hinfo
      | some t =>
        by_cases hlt : t.getLast? = some 1
        case neg =>
          have hg : getUnaryInfo (TypedVal.shaped ish (some t)) outShape
              outStrides = none := by
            unfold getUnaryInfo
            rw [if_neg hqlen]
            simp [hlt]
          rw [hg]
          constructor
          · constructor
            · intro hfalse
              simp at hfalse
            · rintro ⟨-, -, h3⟩
              rcases h3 ish (some t) rfl with ⟨t2, ht2, hl2⟩
              cases ht2
              exact absurd hl2 hlt
          · intro info hinfo
            simp at hinfo
        case pos =>
          cases outStrides with
          | none =>
            have hg : getUnaryInfo (TypedVal.shaped ish (some t)) outShape
                none = none := by
              unfold getUnaryInfo
              rw [if_neg hqlen]
              simp [hlt]
            rw [hg]
            constructor
            · simp
            · intro info hinfo
              simp at hinfo
          | some s =>
            by_cases hs : s.getLast? = some 1
            · have hg : getUnaryInfo (TypedVal.shaped ish (some t)) outShape
                  (some s) = some ⟨toUnsigned32 (outShape.getD 0 0),
                    toUnsigned32 (outShape.getD 1 0), t.headD 0,
                    s.headD 0⟩ := by
                unfold getUnaryInfo
                rw [if_neg hqlen]
                simp [hlt, hs]
              rw [hg]
              constructor
              · simp [hlen, hs, hlt]
              · intro info hinfo
                have hi : info = ⟨toUnsigned32 (outShape.getD 0 0),
                    toUnsigned32 (outShape.getD 1 0), t.headD 0,
                    s.headD 0⟩ := (Option.some_injective _ hinfo).symm
                subst hi
                refine ⟨?_, ?_, ?_, ?_⟩
                · intro d0 d1 hsh h0 h0b h1 h1b
                  subst hsh
                  constructor
                  · simpa [toUnsigned32] using Int.emod_eq_of_lt h0 h0b
                  · simpa [toUnsigned32] using Int.emod_eq_of_lt h1 h1b
                · intro s2 hs2
                  cases hs2
                  rfl
                · intro hsc
                  cases hsc
                · intro ish2 t2 ht2
                  cases ht2
                  rfl
            · have hg : getUnaryInfo (TypedVal.shaped ish (some t)) outShape
                  (some s) = none := by
                unfold getUnaryInfo
                rw [if_neg hqlen]
                simp [hlt, hs]
              rw [hg]
              constructor
              · simp [hs]
              · intro info hinfo
                simp at hinfo

/-- Witness for C3: a rank-1 input of shape 4 with stride 1 and a 2x4
output with strides [4, 1] yield m=2, n=4, ldi=1, ldo=4. -/
theorem getUnaryInfo_correct_witness :
    getUnaryInfo (TypedVal.shaped [4] (some [1])) [2, 4] (some [4, 1]) =
      some ⟨2, 4, 1, 4⟩ ∧
    (2 : Int) = 2 ∧ (4 : Int) = 4 := by
  have h := (getUnaryInfo_correct (TypedVal.shaped [4] (some [1])) [2, 4]
    (some [4, 1])).2
  have hg : getUnaryInfo (TypedVal.shaped [4] (some [1])) [2, 4]
      (some [4, 1]) = some ⟨2, 4, 1, 4⟩ := by decide
  have h2 := h ⟨2, 4, 1, 4⟩ hg
  have hm := h2.1 2 4 rfl (by decide) (by decide) (by decide) (by decide)
  exact ⟨hg, hm.1, hm.2⟩

/-- Helper: getUnaryInfo fails whenever the output rank is not 2. -/
theorem getUnaryInfo_none_of_rank (input : TypedVal) (outShape : List Int)
    (outStrides : Option (List Int)) (h : outShape.length ≠ 2) :
    getUnaryInfo input outShape outStrides = none := by
  unfold getUnaryInfo
  rw [if_pos h]

/-- Helper: getUnaryInfo fails whenever the output's innermost stride is
not 1. -/
theorem getUnaryInfo_none_of_outStride (input : TypedVal)
    (outShape : List Int) (s : List Int) (h : s.getLast? ≠ some 1) :
    getUnaryInfo input outShape (some s) = none := by
  unfold getUnaryInfo
  by_cases hlen : outShape.length ≠ 2
  · rw [if_pos hlen]
  · rw [if_neg hlen]
    cases input with
    | scalar => simp [h]
    | shaped ish istr =>
      cases istr with
      | none => rfl
      | some t =>
        by_cases hlt : t.getLast? = some 1
        · simp [hlt, h]
        · simp [hlt]

/-- C7: each of the three linalg-to-xsmm patterns returns failure — with
no dispatch/invoke emitted, leaving the matched operation unchanged —
whenever any precondition fails: the structural matcher declines, the
UnaryInfo derivation fails (in particular when the output rank is not 2
or the output's innermost stride is not 1), or (for relu) the broadcast
flag cannot be derived from the input's map. -/
theorem linalg_to_xsmm_match_miss_atomicity :
    ∀ (input : TypedVal) (outShape : List Int)
      (outStrides : Option (List Int)) (inputMap : AffineMapS),
    (convertFillOpToUnaryZero false input outShape outStrides = none) ∧
    (convertTransposeOpToUnaryTranspose false input outShape outStrides =
      none) ∧
    (convertGenericToUnaryRelu false input outShape outStrides inputMap =
      none) ∧
    (getUnaryInfo input outShape outStrides = none → ∀ matched : Bool,
      convertFillOpToUnaryZero matched input outShape outStrides = none ∧
      convertTransposeOpToUnaryTranspose matched input outShape outStrides =
        none ∧
      convertGenericToUnaryRelu matched input outShape outStrides inputMap =
        none) ∧
    (outShape.length ≠ 2 → ∀ matched : Bool,
      convertFillOpToUnaryZero matched input outShape outStrides = none ∧
      convertTransposeOpToUnaryTranspose matched input outShape outStrides =
        none ∧
      convertGenericToUnaryRelu matched input outShape outStrides inputMap =
        none) ∧
    (∀ s : List Int, outStrides = some s → s.getLast? ≠ some 1 →
      ∀ matched : Bool,
      convertFillOpToUnaryZero matched input outShape outStrides = none ∧
      convertTransposeOpToUnaryTranspose matched input outShape outStrides =
        none ∧
      convertGenericToUnaryRelu matched input outShape outStrides inputMap =
        none) ∧
    (getBroadCastUnaryFlagFromMap inputMap = none → ∀ matched : Bool,
      convertGenericToUnaryRelu matched input outShape outStrides inputMap =
        none) := by
  intro input outShape outStrides inputMap
  have hnone : getUnaryInfo input outShape outStrides = none →
      ∀ matched : Bool,
      convertFillOpToUnaryZero matched input outShape outStrides = none ∧
      convertTransposeOpToUnaryTranspose matched input outShape outStrides =
        none ∧
      convertGenericToUnaryRelu matched input outShape outStrides inputMap =
        none := by
    intro h matched
    refine ⟨?_, ?_, ?_⟩ <;>
      cases matched <;>
        simp [convertFillOpToUnaryZero, convertTransposeOpToUnaryTranspose,
          convertGenericToUnaryRelu, h]
  refine ⟨?_, ?_, ?_, hnone, ?_, ?_, ?_⟩
  · simp [convertFillOpToUnaryZero]
  · simp [convertTransposeOpToUnaryTranspose]
  · simp [convertGenericToUnaryRelu]
  · intro h
    exact hnone (getUnaryInfo_none_of_rank input outShape outStrides h)
  · intro s hs h
    subst hs
    exact hnone (getUnaryInfo_none_of_outStride input outShape s h)
  · intro h matched
    cases matched <;>
      cases hinfo : getUnaryInfo input outShape outStrides <;>
        simp [convertGenericToUnaryRelu, hinfo, h]

/-- Witness for C7: every failure conjunct applied at a concrete
operation — a scalar input against a 2x2 output of unit strides (with an
unmatchable map for the broadcast conjunct), a rank-1 output, and a
non-unit innermost output stride. -/
theorem linalg_to_xsmm_match_miss_atomicity_witness :
    (convertFillOpToUnaryZero false TypedVal.scalar [2, 2] (some [2, 1]) =
      none) ∧
    (convertFillOpToUnaryZero true TypedVal.scalar [2] (some [1]) = none) ∧
    (convertTransposeOpToUnaryTranspose true TypedVal.scalar [2, 2]
      (some [2, 2]) = none) ∧
    (convertGenericToUnaryRelu true TypedVal.scalar [2, 2] (some [2, 1])
      ⟨3, 0, [AffineExprS.dim 0, AffineExprS.dim 1]⟩ = none) := by
  refine ⟨?_, ?_, ?_, ?_⟩
  · exact (linalg_to_xsmm_match_miss_atomicity TypedVal.scalar [2, 2]
      (some [2, 1]) ⟨2, 0, []⟩).1
  · exact ((linalg_to_xsmm_match_miss_atomicity TypedVal.scalar [2]
      (some [1]) ⟨2, 0, []⟩).2.2.2.2.1 (by decide) true).1
  · exact ((linalg_to_xsmm_match_miss_atomicity TypedVal.scalar [2, 2]
      (some [2, 2]) ⟨2, 0, []⟩).2.2.2.2.2.1 [2, 2] rfl (by decide)
      true).2.1
  · exact (linalg_to_xsmm_match_miss_atomicity TypedVal.scalar [2, 2]
      (some [2, 1])
      ⟨3, 0, [AffineExprS.dim 0, AffineExprS.dim 1]⟩).2.2.2.2.2.2
      (by decide) true

/-- C10: whenever getUnaryInfo succeeds, the transpose pattern emits a
TRANSPOSE dispatch with flag NONE whose leading dims entries are swapped
(`n` then `m` — the input's dimensions, not the output's), while the
zero-fill and relu patterns emit the output dimensions `m` then `n`
unswapped. -/
theorem transpose_dispatch_swaps_dims :
    ∀ (input : TypedVal) (outShape : List Int)
      (outStrides : Option (List Int)) (inputMap : AffineMapS)
      (info : UnaryInfoS) (f : UnaryFlags),
    getUnaryInfo input outShape outStrides = some info →
    (convertTransposeOpToUnaryTranspose true input outShape outStrides =
      some ⟨UnaryKind.TRANSPOSE, [UnaryFlags.NONE],
        [info.n, info.m, info.ldi, info.ldo]⟩) ∧
    (convertFillOpToUnaryZero true input outShape outStrides =
      some ⟨UnaryKind.ZERO, [UnaryFlags.BCAST_SCALAR],
        [info.m, info.n, info.ldi, info.ldo]⟩) ∧
    (getBroadCastUnaryFlagFromMap inputMap = some f →
      convertGenericToUnaryRelu true input outShape outStrides inputMap =
        some ⟨UnaryKind.RELU, [f], [info.m, info.n, info.ldi, info.ldo]⟩) := by
  intro input outShape outStrides inputMap info f hinfo
  refine ⟨?_, ?_, ?_⟩
  · simp [convertTransposeOpToUnaryTranspose, hinfo, replaceOpWithUnary]
  · simp [convertFillOpToUnaryZero, hinfo, replaceOpWithUnary]
  · intro hf
    simp [convertGenericToUnaryRelu, hinfo, hf, replaceOpWithUnary]

/-- Witness for C10: a 4x2 input with strides [2,1] and a 2x4 output with
strides [4,1]; the transpose dispatch carries dims [4,2,2,4], the
zero-fill dispatch [2,4,2,4], the relu dispatch (identity access map,
flag NONE) [2,4,2,4]. -/
theorem transpose_dispatch_swaps_dims_witness :
    (convertTransposeOpToUnaryTranspose true
      (TypedVal.shaped [4, 2] (some [2, 1])) [2, 4] (some [4, 1]) =
      some ⟨UnaryKind.TRANSPOSE, [UnaryFlags.NONE], [4, 2, 2, 4]⟩) ∧
    (convertFillOpToUnaryZero true (TypedVal.shaped [4, 2] (some [2, 1]))
      [2, 4] (some [4, 1]) =
      some ⟨UnaryKind.ZERO, [UnaryFlags.BCAST_SCALAR], [2, 4, 2, 4]⟩) ∧
    (convertGenericToUnaryRelu true (TypedVal.shaped [4, 2] (some [2, 1]))
      [2, 4] (some [4, 1]) ⟨2, 0, [AffineExprS.dim 0, AffineExprS.dim 1]⟩ =
      some ⟨UnaryKind.RELU, [UnaryFlags.NONE], [2, 4, 2, 4]⟩) := by
  have h := transpose_dispatch_swaps_dims
    (TypedVal.shaped [4, 2] (some [2, 1])) [2, 4] (some [4, 1])
    ⟨2, 0, [AffineExprS.dim 0, AffineExprS.dim 1]⟩ ⟨2, 4, 2, 4⟩
    UnaryFlags.NONE (by decide)
  exact ⟨h.1, h.2.1, h.2.2 (by decide)⟩

/-- C6: the zero-tensor chase — true on a linalg.fill whose single input
is a constant float or integer zero, propagated backward through
linalg.copy, memref.copy, memref.subview, tensor.cast and
tensor.extract_slice (through the source or the closest earlier user of
the source's defining op), false on a value with no defining operation,
on any operation outside this set and on a fill without exactly one
input; getPrevUser returns the user immediately after the current one in
the (last-to-first) use list. -/
theorem isZeroTensor_chase_correct :
    (∀ z : Bool, isValConstZeroZ (some (ZOp.constF z)) = z) ∧
    (∀ v : Int, isValConstZeroZ (some (ZOp.constI v)) = decide (v = 0)) ∧
    (∀ v, isZeroTensorO (some (ZOp.fill [v])) = isValConstZeroZ v) ∧
    (∀ inputs, inputs.length ≠ 1 →
      isZeroTensorO (some (ZOp.fill inputs)) = false) ∧
    (∀ v p, isZeroTensorO (some (ZOp.linalgCopy [v] p)) =
      (isZeroTensorO v || isZeroTensorO p)) ∧
    (∀ s p, isZeroTensorO (some (ZOp.memrefCopy s p)) =
      (isZeroTensorO s || isZeroTensorO p)) ∧
    (∀ s p, isZeroTensorO (some (ZOp.subview s p)) =
      (isZeroTensorO s || isZeroTensorO p)) ∧
    (∀ s p, isZeroTensorO (some (ZOp.tensorCast s p)) =
      (isZeroTensorO s || isZeroTensorO p)) ∧
    (∀ s p, isZeroTensorO (some (ZOp.extractSlice s p)) =
      (isZeroTensorO s || isZeroTensorO p)) ∧
    (isZeroTensorO none = false) ∧
    (isZeroTensorO (some ZOp.otherZ) = false) ∧
    (∀ (pre post : List Nat) (cur : Nat), cur ∉ pre →
      getPrevUser (pre ++ cur :: post) cur = post.head?) := by
  refine ⟨fun z => rfl, fun v => rfl, fun v => by simp [isZeroTensorO], ?_,
    fun v p => by simp [isZeroTensorO], fun s p => by simp [isZeroTensorO],
    fun s p => by simp [isZeroTensorO], fun s p => by simp [isZeroTensorO],
    fun s p => by simp [isZeroTensorO], by simp [isZeroTensorO],
    by simp [isZeroTensorO], ?_⟩
  · intro inputs h
    cases inputs with
    | nil => simp [isZeroTensorO]
    | cons a t =>
      cases t with
      | nil => simp at h
      | cons b t2 => simp [isZeroTensorO]
  · intro pre post cur hnotin
    induction pre with
    | nil => simp [getPrevUser]
    | cons a rest ih =>
      have hne : ¬(a = cur) := by
        intro he
        exact hnotin (he ▸ List.mem_cons_self a rest)
      have hrest : cur ∉ rest := fun hm => hnotin (List.mem_cons_of_mem a hm)
      simp only [List.cons_append, getPrevUser, if_neg hne]
      exact ih hrest

/-- Witness for C6: the fill-arity conjunct at an empty input list and
the getPrevUser conjunct at the use list [3, 7, 5] with current user 7. -/
theorem isZeroTensor_chase_correct_witness :
    isZeroTensorO (some (ZOp.fill [])) = false ∧
    getPrevUser [3, 7, 5] 7 = some 5 := by
  constructor
  · exact isZeroTensor_chase_correct.2.2.2.1 [] (by decide)
  · exact isZeroTensor_chase_correct.2.2.2.2.2.2.2.2.2.2.2 [3] [5] 7
      (by decide)

/-- Helper: hasOnlyScalarElementwiseOp rejects a single block whose
operation count differs from 2. -/
theorem hasOnlyScalarElementwiseOp_false_of_len (isOp : BodyOp → Bool)
    (b : BlockM) (h : b.ops.length ≠ 2) :
    hasOnlyScalarElementwiseOp isOp [b] = false := by
  unfold hasOnlyScalarElementwiseOp
  simp [h]

/-- C9: the add and relu matchers refuse partial matches — a generic
whose single-block body holds more than two operations (the expected
arith op plus the yield) never satisfies canMapToTppAdd, isTppAdd,
canMapToTppRelu or isTppRelu. -/
theorem matchers_refuse_extra_body_ops :
    ∀ (g : GenericOp) (b : BlockM), g.blocks = [b] → 2 < b.ops.length →
      canMapToTppAdd g = false ∧ isTppAdd g = false ∧
      canMapToTppRelu g = false ∧ isTppRelu g = false := by
  intro g b hb hlen2
  have hlen : b.ops.length ≠ 2 := by omega
  have hadd := hasOnlyScalarElementwiseOp_false_of_len isAddFOp b hlen
  have hmax := hasOnlyScalarElementwiseOp_false_of_len isMaxFOp b hlen
  refine ⟨?_, ?_, ?_, ?_⟩
  · unfold canMapToTppAdd
    split_ifs <;> simp [hb, hadd]
  · unfold isTppAdd
    split_ifs <;> simp [hb, hadd]
  · unfold canMapToTppRelu
    split_ifs <;> simp [hb, hmax]
  · unfold isTppRelu
    split_ifs <;> simp [hb, hmax]

/-- Witness for C9: a buffer-semantics elementwise generic whose body
holds a cast, an addf and the yield (three operations) matches none of
the four predicates. -/
theorem matchers_refuse_extra_body_ops_witness :
    canMapToTppAdd
      ⟨[IteratorTy.parallel],
        [⟨OpndTy.shapedTy false [some 2], none, none⟩],
        [⟨OpndTy.shapedTy false [some 2], none, none⟩],
        [⟨1, 0, [AffineExprS.dim 0]⟩, ⟨1, 0, [AffineExprS.dim 0]⟩],
        [⟨2, [BodyOp.unary (Val.arg 0) true,
          BodyOp.arith ArithKind.addf (Val.res 0) (Val.arg 1) true,
          BodyOp.yield [Val.res 1]]⟩]⟩ = false ∧
    isTppAdd
      ⟨[IteratorTy.parallel],
        [⟨OpndTy.shapedTy false [some 2], none, none⟩],
        [⟨OpndTy.shapedTy false [some 2], none, none⟩],
        [⟨1, 0, [AffineExprS.dim 0]⟩, ⟨1, 0, [AffineExprS.dim 0]⟩],
        [⟨2, [BodyOp.unary (Val.arg 0) true,
          BodyOp.arith ArithKind.addf (Val.res 0) (Val.arg 1) true,
          BodyOp.yield [Val.res 1]]⟩]⟩ = false := by
  have h := matchers_refuse_extra_body_ops
    ⟨[IteratorTy.parallel],
      [⟨OpndTy.shapedTy false [some 2], none, none⟩],
      [⟨OpndTy.shapedTy false [some 2], none, none⟩],
      [⟨1, 0, [AffineExprS.dim 0]⟩, ⟨1, 0, [AffineExprS.dim 0]⟩],
      [⟨2, [BodyOp.unary (Val.arg 0) true,
        BodyOp.arith ArithKind.addf (Val.res 0) (Val.arg 1) true,
        BodyOp.yield [Val.res 1]]⟩]⟩
    ⟨2, [BodyOp.unary (Val.arg 0) true,
      BodyOp.arith ArithKind.addf (Val.res 0) (Val.arg 1) true,
      BodyOp.yield [Val.res 1]]⟩ rfl (by decide)
  exact ⟨h.1, h.2.1⟩

/-- Counterexample to C8 as stated: a linalg.generic over memrefs with a
dynamic second extent on both operands satisfies isTppAdd — the isTpp*
predicates perform no static-shape check. -/
theorem isTppAdd_accepts_dynamic_counterexample :
    isTppAdd
      ⟨[IteratorTy.parallel, IteratorTy.parallel],
        [⟨OpndTy.shapedTy false [some 4, none], none, none⟩],
        [⟨OpndTy.shapedTy false [some 4, none], none, none⟩],
        [⟨2, 0, [AffineExprS.dim 0, AffineExprS.dim 1]⟩,
         ⟨2, 0, [AffineExprS.dim 0, AffineExprS.dim 1]⟩],
        [⟨2, [BodyOp.arith ArithKind.addf (Val.arg 0) (Val.arg 1) true,
          BodyOp.yield [Val.res 0]]⟩]⟩ = true ∧
    GenericOp.hasDynamicShape
      ⟨[IteratorTy.parallel, IteratorTy.parallel],
        [⟨OpndTy.shapedTy false [some 4, none], none, none⟩],
        [⟨OpndTy.shapedTy false [some 4, none], none, none⟩],
        [⟨2, 0, [AffineExprS.dim 0, AffineExprS.dim 1]⟩,
         ⟨2, 0, [AffineExprS.dim 0, AffineExprS.dim 1]⟩],
        [⟨2, [BodyOp.arith ArithKind.addf (Val.arg 0) (Val.arg 1) true,
          BodyOp.yield [Val.res 0]]⟩]⟩ = true := by
  constructor <;> rfl

/-- C8 (amended): dynamic extents are rejected by the mapping predicates
canMapToTppAdd, canMapToTppRelu and canMapToTppIdentity; the isTpp*
predicates do not perform this check. -/
theorem canMapToTpp_rejects_dynamic :
    ∀ g : GenericOp, g.hasDynamicShape = true →
      canMapToTppAdd g = false ∧ canMapToTppRelu g = false ∧
      canMapToTppIdentity g = false := by
  intro g h
  have hs : hasStaticShape g = false := by simp [hasStaticShape, h]
  refine ⟨?_, ?_, ?_⟩
  · simp [canMapToTppAdd, hs]
  · simp [canMapToTppRelu, hs]
  · simp [canMapToTppIdentity, hs]

/-- Witness for C8 (amended): the dynamic-shaped generic from the
counterexample is rejected by all three canMapToTpp predicates. -/
theorem canMapToTpp_rejects_dynamic_witness :
    canMapToTppAdd
      ⟨[IteratorTy.parallel, IteratorTy.parallel],
        [⟨OpndTy.shapedTy false [some 4, none], none, none⟩],
        [⟨OpndTy.shapedTy false [some 4, none], none, none⟩],
        [⟨2, 0, [AffineExprS.dim 0, AffineExprS.dim 1]⟩,
         ⟨2, 0, [AffineExprS.dim 0, AffineExprS.dim 1]⟩],
        [⟨2, [BodyOp.arith ArithKind.addf (Val.arg 0) (Val.arg 1) true,
          BodyOp.yield [Val.res 0]]⟩]⟩ = false := by
  exact (canMapToTpp_rejects_dynamic
    ⟨[IteratorTy.parallel, IteratorTy.parallel],
      [⟨OpndTy.shapedTy false [some 4, none], none, none⟩],
      [⟨OpndTy.shapedTy false [some 4, none], none, none⟩],
      [⟨2, 0, [AffineExprS.dim 0, AffineExprS.dim 1]⟩,
       ⟨2, 0, [AffineExprS.dim 0, AffineExprS.dim 1]⟩],
      [⟨2, [BodyOp.arith ArithKind.addf (Val.arg 0) (Val.arg 1) true,
        BodyOp.yield [Val.res 0]]⟩]⟩ rfl).1

/-- C1 (divergence): a linalg.generic with matmul iterators and maps
whose body computes the mul and the add but yields the block argument
`a` directly — its body is not a permutation of
u5(u1(c) + u2(u3(a) * u4(b))) (the yielded value does not trace back to
the add, as the third conjunct shows, so the documented conjunction
rejects it), yet isTppMatmul returns true because isAddMul joins its
three facet checks with `|=`. -/
theorem isTppMatmul_not_conservative_bug :
    isTppMatmul
      ⟨[IteratorTy.parallel, IteratorTy.parallel, IteratorTy.reduction],
        [⟨OpndTy.shapedTy false [some 4, some 8], none, none⟩,
         ⟨OpndTy.shapedTy false [some 8, some 4], none, none⟩],
        [⟨OpndTy.shapedTy false [some 4, some 4], none, none⟩],
        matmulMaps,
        [⟨3, [BodyOp.arith ArithKind.mulf (Val.arg 0) (Val.arg 1) true,
          BodyOp.arith ArithKind.addf (Val.res 0) (Val.arg 2) true,
          BodyOp.yield [Val.arg 0]]⟩]⟩ = true ∧
    isAddMulAsDocumented isAddFOp isMulFOp
      ⟨3, [BodyOp.arith ArithKind.mulf (Val.arg 0) (Val.arg 1) true,
        BodyOp.arith ArithKind.addf (Val.res 0) (Val.arg 2) true,
        BodyOp.yield [Val.arg 0]]⟩ = false ∧
    isChainOfUnaryOpsFrom
      [BodyOp.arith ArithKind.mulf (Val.arg 0) (Val.arg 1) true,
       BodyOp.arith ArithKind.addf (Val.res 0) (Val.arg 2) true,
       BodyOp.yield [Val.arg 0]] 4 (Val.arg 0) (Val.res 1) = false := by
  refine ⟨?_, ?_, ?_⟩ <;> rfl

/-- Helper: reading back a packed coordinate built from floor-divided
outer indices and remainder inner indices yields the original source
index (`(i / t) * t + i % t = i` on tiled dimensions). -/
theorem srcIndex_floor_mod {r k : Nat} (D : PackDescF r k)
    (idx : Fin r → Nat) :
    D.srcIndex
      (fun d =>
        match D.findJ d with
        | some j => idx d / D.tiles j
        | none => idx d)
      (fun j => idx (D.pos j) % D.tiles j) = idx := by
  funext d
  unfold PackDescF.srcIndex
  cases hj : D.findJ d with
  | none => simp [hj]
  | some j =>
    have hj2 : (List.finRange k).find? (fun j2 => decide (D.pos j2 = d)) =
        some j := hj
    have hpa := List.find?_some hj2
    have hpos : D.pos j = d := by
      simpa using hpa
    simp only [hj, hpos]
    exact Nat.div_add_mod' (idx d) (D.tiles j)

/-- C4: the shape round trip — unpacking the packed tensor with the same
descriptor verifies against (and reproduces) the source shape, and under
the scalar reference semantics every in-bounds (non-padded) element of
the source is recovered unchanged. -/
theorem pack_unpack_roundtrip :
    ∀ (r k : Nat) (shape : Fin r → Nat) (α : Type)
      (data : (Fin r → Nat) → α) (D : PackDescF r k) (pad : α),
      Function.Injective D.pos → (∀ j, 0 < D.tiles j) →
      (unpackVerify D (D.packedOuterShape shape) D.tiles shape = true) ∧
      (∀ idx : Fin r → Nat, (∀ d, idx d < shape d) →
        unpackData (packData shape data D pad) D idx = data idx) := by
  intro r k shape α data D pad hinj htiles
  constructor
  · unfold unpackVerify
    simp
  · intro idx hidx
    unfold unpackData packData
    simp only [Equiv.apply_symm_apply]
    rw [srcIndex_floor_mod D idx]
    have hcond : ((List.finRange r).all fun d => decide (idx d < shape d)) =
        true := by
      rw [List.all_eq_true]
      intro d _
      exact decide_eq_true (hidx d)
    rw [if_pos hcond]

/-- Witness for C4: a 3x5 source tiled on both dimensions with tiles
[2, 2] (injective positions, positive tiles) and the interior index
(2, 4) recovered through pack-then-unpack. -/
theorem pack_unpack_roundtrip_witness :
    (unpackVerify
      ⟨fun j => j, fun _ => 2, Equiv.refl (Fin 2)⟩
      (PackDescF.packedOuterShape
        ⟨fun j => j, fun _ => 2, Equiv.refl (Fin 2)⟩
        (fun d => if d.val = 0 then 3 else 5))
      (fun _ => 2) (fun d => if d.val = 0 then 3 else 5) = true) ∧
    unpackData
      (packData (fun d => if d.val = 0 then 3 else 5)
        (fun idx : Fin 2 → Nat => idx 0 * 10 + idx 1)
        ⟨fun j => j, fun _ => 2, Equiv.refl (Fin 2)⟩ 99)
      ⟨fun j => j, fun _ => 2, Equiv.refl (Fin 2)⟩
      (fun d => if d.val = 0 then 2 else 4) = 24 := by
  have h := pack_unpack_roundtrip 2 2 (fun d => if d.val = 0 then 3 else 5)
    Nat (fun idx => idx 0 * 10 + idx 1)
    ⟨fun j => j, fun _ => 2, Equiv.refl (Fin 2)⟩ 99
    (fun a b hab => hab) (fun j => Nat.succ_pos 1)
  refine ⟨h.1, ?_⟩
  have h2 := h.2 (fun d => if d.val = 0 then 2 else 4) (by decide)
  simpa using h2

/-- C5: packing a 13x15 input with inner tiles [8, 2] and no outer
permutation yields the static shape 2x8x8x2 (ceiling-division outer
extents, tile sizes appended at the tail); with a padding value set, an
outer result dimension is dynamic exactly when the corresponding input
dimension is, and the appended tile dimensions are always static. -/
theorem pack_with_padding_shape :
    (packedShapeWithPad [some 13, some 15] [0, 1] [8, 2] =
      [some 2, some 8, some 8, some 2]) ∧
    (∀ (src : List (Option Nat)) (pos tiles : List Nat) (d : Nat),
      d < src.length →
      (packedShapeWithPad src pos tiles)[d]? =
        some (packOuterDim src pos tiles d)) ∧
    (∀ (src : List (Option Nat)) (pos tiles : List Nat) (d : Nat),
      (packOuterDim src pos tiles d).isNone = (src.getD d none).isNone) ∧
    (∀ (src : List (Option Nat)) (pos tiles : List Nat) (j : Nat),
      (packedShapeWithPad src pos tiles)[src.length + j]? =
        (tiles[j]?).map some) := by
  refine ⟨by decide, ?_, ?_, ?_⟩
  · intro src pos tiles d h
    unfold packedShapeWithPad
    rw [List.getElem?_append]
    rw [if_pos (by simpa using h)]
    simp [List.getElem?_map, List.getElem?_range, h]
  · intro src pos tiles d
    unfold packOuterDim
    cases hf : pos.findIdx? fun p => decide (p = d) with
    | none => simp
    | some j => simp
  · intro src pos tiles j
    unfold packedShapeWithPad
    rw [List.getElem?_append]
    rw [if_neg (by
      simp only [List.length_map, List.length_range]
      omega)]
    simp

/-- Witness for C5: the outer-dimension conjunct applied to a source with
one static and one dynamic extent — the static dimension 0 stays static
(ceiling-divided), the dynamic dimension 1 stays dynamic. -/
theorem pack_with_padding_shape_witness :
    (packedShapeWithPad [some 13, none] [0, 1] [8, 2])[0]? =
      some (some 2) ∧
    (packedShapeWithPad [some 13, none] [0, 1] [8, 2])[1]? = some none ∧
    (packOuterDim [some 13, none] [0, 1] [8, 2] 1).isNone =
      (([some 13, none] : List (Option Nat)).getD 1 none).isNone := by
  refine ⟨?_, ?_, ?_⟩
  · have h := pack_with_padding_shape.2.1 [some 13, none] [0, 1] [8, 2] 0
      (by decide)
    rw [h]
    decide
  · have h := pack_with_padding_shape.2.1 [some 13, none] [0, 1] [8, 2] 1
      (by decide)
    rw [h]
    decide
  · exact pack_with_padding_shape.2.2.1 [some 13, none] [0, 1] [8, 2] 1

end TppSandbox
